import Mathlib

/-!
# Verification of the electricity-price bot (bot_fetch.py)

Shallow embedding of the analysis core of `src/bot_fetch.py`:
the price normalizer (`filter_prices`), the cheapest-quarters selection
(`sorted(filtered, key=value)[:3]` in `main`), the cheapest-hour-block
selector (`find_cheapest_hour`), the report formatter, and the
orchestration of `main` after config load.

Modelling choices:
* A timestamp is an instant, counted in minutes (ℤ).  A Python aware
  `datetime` denotes an instant; `astimezone` changes only the displayed
  wall clock, so the `(dt_local, value)` pairs that `filter_prices`
  builds are modelled as the same `(instant, value)` pairs, and the
  local calendar view is recovered by a conversion function
  `toLocal : ℤ → LocalDT` (the counterpart of `pytz.timezone(TIMEZONE)`
  composed with `astimezone`).  `toLocal` is a parameter: the tz
  database is out of scope.
* Prices are ℚ (the claims are about ordering and averaging, not about
  binary floating point rounding; all inputs in the witnesses are small
  rationals where float and rational arithmetic agree).
* `float("inf")` together with the `cheapest_block = None` initial state
  of the loop in `find_cheapest_hour` is modelled by an
  `Option (block × avg)` accumulator: `none` compares greater than
  everything, exactly as the infinite initial average does.
-/

namespace PriceBot

/-- A price point: instant in minutes since some epoch, and price in
snt/kWh.  Counterpart of one `(datetime, value)` tuple. -/
abbrev Point := ℤ × ℚ

/-- `QUARTER_HOUR_MINUTES = 15` from the source. -/
def QUARTER_HOUR_MINUTES : ℤ := 15

/-- `QUARTERS_PER_HOUR = 4` from the source. -/
def QUARTERS_PER_HOUR : ℕ := 4

/-- Local calendar view of an instant: calendar date (as a day count),
hour of day and minute, i.e. what `dt_local.date()`, `dt_local.hour`
and `dt_local.minute` expose. -/
structure LocalDT where
  date : ℤ
  hour : ℕ
  minute : ℕ
deriving DecidableEq

/-- The keep-condition of `filter_prices` (line 83):
`dt_local.date() == today and start_hour <= dt_local.hour < end_hour`. -/
def keepPoint (toLocal : ℤ → LocalDT) (today : ℤ) (sh eh : ℕ) (p : Point) : Bool :=
  let dtl := toLocal p.1
  decide (dtl.date = today ∧ sh ≤ dtl.hour ∧ dtl.hour < eh)

/-- `filter_prices` (lines 76–85): the accumulating loop that keeps the
records whose local date is `today` and whose local hour lies in
`[sh, eh)`, in provider order.  (`astimezone` preserves the instant, so
each appended `(dt_local, value)` pair is the input pair itself in the
instant model.) -/
def filter_prices (toLocal : ℤ → LocalDT) (today : ℤ) (sh eh : ℕ) :
    List Point → List Point
  | [] => []
  | p :: rest =>
    let dtl := toLocal p.1
    if dtl.date = today ∧ sh ≤ dtl.hour ∧ dtl.hour < eh then
      p :: filter_prices toLocal today sh eh rest
    else
      filter_prices toLocal today sh eh rest

/-- The slice `prices[i:i+QUARTERS_PER_HOUR]` (line 130). -/
def windowAt (prices : List Point) (i : ℕ) : List Point :=
  (prices.drop i).take QUARTERS_PER_HOUR

/-- `sum(p[1] for p in block) / QUARTERS_PER_HOUR` (line 131). -/
def windowAvg (block : List Point) : ℚ :=
  (block.map Prod.snd).sum / (QUARTERS_PER_HOUR : ℚ)

/-- One iteration of the loop in `find_cheapest_hour` (lines 129–134):
update the running best (block, average) if the current window is
strictly cheaper. -/
def bestStep (prices : List Point) (best : Option (List Point × ℚ)) (i : ℕ) :
    Option (List Point × ℚ) :=
  let block := windowAt prices i
  let avg := windowAvg block
  match best with
  | none => some (block, avg)
  | some b => if avg < b.2 then some (block, avg) else some b

/-- `find_cheapest_hour` (lines 114–136).  `none` is the `(None, None)`
return for short inputs; otherwise the loop over
`range(len(prices) - QUARTERS_PER_HOUR + 1)` returns the cheapest block
with its average. -/
def find_cheapest_hour (prices : List Point) : Option (List Point × ℚ) :=
  if prices.length < QUARTERS_PER_HOUR then none
  else (List.range (prices.length - QUARTERS_PER_HOUR + 1)).foldl (bestStep prices) none

/-- The stable ascending-by-value sort `sorted(filtered, key=lambda x: x[1])`
(line 178).  Python's `sorted` is a stable sort; insertion sort with the
same key order is stable, and a stable sort's output is determined by the
key order, so this is the same list. -/
def sorted_prices (l : List Point) : List Point :=
  l.insertionSort (fun a b => a.2 ≤ b.2)

/-- `top3 = sorted_prices[:3]` (line 179). -/
def top3 (l : List Point) : List Point :=
  (sorted_prices l).take 3

/-- Zero-pad a number below 100 to two digits, as `%H`/`%M`/`%02d`-style
formatting does. -/
def pad2 (n : ℕ) : String :=
  if n < 10 then "0" ++ toString n else toString n

/-- `dt.strftime("%H:%M")` on the local view of an instant. -/
def fmtHM (d : LocalDT) : String :=
  pad2 d.hour ++ ":" ++ pad2 d.minute

/-- `"{:.2f}".format(q)`: the price rendered with two decimals
(rounding to the nearest hundredth). -/
def fmt2 (q : ℚ) : String :=
  let c : ℤ := round (q * 100)
  (if c < 0 then "-" else "") ++ toString (c.natAbs / 100) ++ "." ++ pad2 (c.natAbs % 100)

/-- `format_price_line` (lines 108–110): one numbered top-quarter line,
showing the quarter's local start–end range and the price. -/
def format_price_line (toLocal : ℤ → LocalDT) (index : ℕ) (t : ℤ) (val : ℚ) : String :=
  toString index ++ ". " ++ fmtHM (toLocal t) ++ "–" ++
    fmtHM (toLocal (t + QUARTER_HOUR_MINUTES)) ++ ": " ++ fmt2 val ++ " snt/kWh"

/-- The time range reported for a block by `format_cheapest_hour`
(lines 151–152): `block[0][0]` to `block[-1][0] + 15 minutes`.  `none`
for an empty block (the falsy case of `if not block`). -/
def blockRange (block : List Point) : Option (ℤ × ℤ) :=
  match block.head?, block.getLast? with
  | some s, some e => some (s.1, e.1 + QUARTER_HOUR_MINUTES)
  | _, _ => none

/-- `format_cheapest_hour` (lines 138–155): render the cheapest block
found by `find_cheapest_hour`, or `none` when there is no block. -/
def format_cheapest_hour (toLocal : ℤ → LocalDT) (prices : List Point) : Option String :=
  match find_cheapest_hour prices with
  | none => none
  | some (block, avg) =>
    match blockRange block with
    | none => none
    | some (s, e) =>
      some ("Cheapest 1-hour block: " ++ fmtHM (toLocal s) ++ "–" ++ fmtHM (toLocal e) ++
        " (" ++ fmt2 avg ++ " snt/kWh average)")

/-- The report text built by `main` for a nonempty filtered series
(lines 177–193): header, numbered top-3 lines, blank line, overall
average, and the cheapest-hour line when present. -/
def buildReport (toLocal : ℤ → LocalDT) (sh eh : ℕ) (filtered : List Point) : String :=
  let header := "Three Cheapest Quarters Today (" ++ toString sh ++ "–" ++ toString eh ++ "):"
  let priceLines := (top3 filtered).enum.map
    (fun ip => format_price_line toLocal (ip.1 + 1) ip.2.1 ip.2.2)
  let avg := (filtered.map Prod.snd).sum / (filtered.length : ℚ)
  let base := header :: priceLines ++ ["", "Average price today: " ++ fmt2 avg ++ " snt/kWh"]
  let lines :=
    match format_cheapest_hour toLocal filtered with
    | none => base
    | some s => base ++ ["", s]
  String.intercalate "\n" lines

/-- Observable outcome of one run: the texts handed to the delivery
channel (`send_telegram_message` calls attempted), and the process exit
status. -/
structure RunResult where
  sends : List String
  exitCode : ℕ
deriving DecidableEq

/-- The module-level configuration validation (lines 33–45), which runs
before `main`: `some code` means `sys.exit(code)`, `none` means startup
succeeds.  Note that the configured `TIMEZONE` string is merely read
(line 39) and never validated here: no `pytz.timezone` call happens at
startup. -/
def validateStartup (token chatId : Option String) (sh eh : ℤ) : Option ℕ :=
  if token = none ∨ token = some "" ∨ chatId = none ∨ chatId = some "" then some 1
  else if ¬ (0 ≤ sh ∧ sh < 24) ∨ ¬ (0 ≤ eh ∧ eh ≤ 24) ∨ sh ≥ eh then some 1
  else none

/-- `main` (lines 157–203) after startup, with its external effects
explicit.  `resolve` models `pytz.timezone`: `none` is
`UnknownTimeZoneError`, raised at line 161 inside the `try` block,
caught by the generic handler at line 198, which attempts one error
notification and returns normally (exit code 0).  `fetch` models the
provider call's outcome.  `today` is `datetime.now(tz).date()`
(line 162), i.e. the local date of the current instant `now`. -/
def mainRun (resolve : String → Option (ℤ → LocalDT)) (tzName : String)
    (sh eh : ℕ) (now : ℤ) (fetch : Except String (List Point)) : RunResult :=
  match resolve tzName with
  | none => ⟨["Error running bot: UnknownTimeZoneError"], 0⟩
  | some toLocal =>
    match fetch with
    | .error e => ⟨["Error running bot: " ++ e], 0⟩
    | .ok prices =>
      let today := (toLocal now).date
      let filtered := filter_prices toLocal today sh eh prices
      if filtered.isEmpty then
        ⟨["No electricity price data found for today."], 0⟩
      else
        ⟨[buildReport toLocal sh eh filtered], 0⟩

/-- A concrete local-time conversion used only to instantiate theorems:
days of 1440 minutes, no offset. -/
def utcLocal (t : ℤ) : LocalDT :=
  ⟨t.fdiv 1440, ((t.emod 1440).toNat) / 60, (t.emod 60).toNat⟩

/-! ## Helper lemmas -/

/-- The accumulating loop of `filter_prices` is `List.filter` with the
keep-condition. -/
lemma filter_prices_eq_filter (toLocal : ℤ → LocalDT) (today : ℤ) (sh eh : ℕ)
    (l : List Point) :
    filter_prices toLocal today sh eh l = l.filter (keepPoint toLocal today sh eh) := by
  induction l with
  | nil => rfl
  | cons p rest ih =>
    by_cases h : (toLocal p.1).date = today ∧ sh ≤ (toLocal p.1).hour ∧ (toLocal p.1).hour < eh
    · simp [filter_prices, keepPoint, h, ih]
    · simp [filter_prices, keepPoint, h, ih]

/-- The loop of `find_cheapest_hour`, run over `range n` with `0 < n`,
returns the window at some index `i < n` whose average is minimal among
all `n` windows, and strictly below the average of every earlier
window (the strict `<` comparison keeps the first minimum). -/
lemma foldl_bestStep_spec (prices : List Point) :
    ∀ n : ℕ, 0 < n →
      ∃ i, i < n ∧
        (List.range n).foldl (bestStep prices) none =
          some (windowAt prices i, windowAvg (windowAt prices i)) ∧
        (∀ j, j < n → windowAvg (windowAt prices i) ≤ windowAvg (windowAt prices j)) ∧
        (∀ j, j < i → windowAvg (windowAt prices i) < windowAvg (windowAt prices j)) := by
  intro n
  induction n with
  | zero => intro h; exact absurd h (lt_irrefl 0)
  | succ n ih =>
    intro _
    rcases Nat.eq_zero_or_pos n with hn | hn
    · subst hn
      refine ⟨0, Nat.zero_lt_one, ?_, ?_, ?_⟩
      · simp [List.range_succ, bestStep]
      · intro j hj
        have : j = 0 := by omega
        subst this; exact le_refl _
      · intro j hj; exact absurd hj (Nat.not_lt_zero j)
    · obtain ⟨i, hi, hfold, hmin, hfirst⟩ := ih hn
      rw [List.range_succ, List.foldl_append, hfold]
      simp only [List.foldl_cons, List.foldl_nil, bestStep]
      by_cases hlt : windowAvg (windowAt prices n) < windowAvg (windowAt prices i)
      · rw [if_pos hlt]
        refine ⟨n, Nat.lt_succ_self n, rfl, ?_, ?_⟩
        · intro j hj
          rcases Nat.lt_succ_iff_lt_or_eq.mp hj with h | h
          · exact le_of_lt (lt_of_lt_of_le hlt (hmin j h))
          · subst h; exact le_refl _
        · intro j hj
          exact lt_of_lt_of_le hlt (hmin j hj)
      · rw [if_neg hlt]
        refine ⟨i, Nat.lt_succ_of_lt hi, rfl, ?_, hfirst⟩
        intro j hj
        rcases Nat.lt_succ_iff_lt_or_eq.mp hj with h | h
        · exact hmin j h
        · subst h; exact le_of_not_lt hlt

instance : IsTotal Point (fun a b => a.2 ≤ b.2) :=
  ⟨fun a b => le_total a.2 b.2⟩

instance : IsTrans Point (fun a b => a.2 ≤ b.2) :=
  ⟨fun _ _ _ h₁ h₂ => le_trans h₁ h₂⟩

/-- Inserting `a` into `l` in key order places it in front of the
entries with key equal to `a`'s: filtering by an exact price value
commutes with `orderedInsert` up to a front insertion. -/
lemma filter_orderedInsert_key (k : ℚ) (a : Point) (l : List Point) :
    (List.orderedInsert (fun a b : Point => a.2 ≤ b.2) a l).filter
        (fun p => decide (p.2 = k)) =
      if a.2 = k then a :: l.filter (fun p => decide (p.2 = k))
      else l.filter (fun p => decide (p.2 = k)) := by
  induction l with
  | nil => by_cases h : a.2 = k <;> simp [List.orderedInsert, h]
  | cons b l ih =>
    rcases le_or_lt a.2 b.2 with hr | hr
    · have hstep : List.orderedInsert (fun a b : Point => a.2 ≤ b.2) a (b :: l) =
          a :: b :: l := by
        simp only [List.orderedInsert]
        rw [if_pos hr]
      rw [hstep]
      by_cases h : a.2 = k <;> simp [List.filter_cons, h]
    · have hstep : List.orderedInsert (fun a b : Point => a.2 ≤ b.2) a (b :: l) =
          b :: List.orderedInsert (fun a b : Point => a.2 ≤ b.2) a l := by
        simp only [List.orderedInsert]
        rw [if_neg (not_le.mpr hr)]
      rw [hstep]
      by_cases h : a.2 = k
      · have hb : ¬ b.2 = k := ne_of_lt (h ▸ hr)
        simp [List.filter_cons, hb, ih, h]
      · by_cases hb : b.2 = k <;> simp [List.filter_cons, hb, ih, h]

/-- Stability of the sort of line 178: filtering the sorted series by an
exact price value returns those entries in their original input order. -/
lemma filter_sorted_prices_key (k : ℚ) (l : List Point) :
    (sorted_prices l).filter (fun p => decide (p.2 = k)) =
      l.filter (fun p => decide (p.2 = k)) := by
  induction l with
  | nil => rfl
  | cons a l ih =>
    rw [sorted_prices, List.insertionSort]
    rw [show List.insertionSort (fun a b : Point => a.2 ≤ b.2) l = sorted_prices l from rfl]
    rw [filter_orderedInsert_key]
    by_cases h : a.2 = k <;> simp [h, ih, List.filter_cons]

/-! ## Claim theorems -/

/-- C2: for every price series with fewer than 4 points,
`find_cheapest_hour` returns no block and no average (the `(None, None)`
return, modelled as `none`). -/
theorem find_cheapest_hour_short (prices : List Point) (h : prices.length < 4) :
    find_cheapest_hour prices = none := by
  simp [find_cheapest_hour, QUARTERS_PER_HOUR, h]

/-- Witness for C2 at the concrete one-point series `[(0, 5)]`. -/
theorem find_cheapest_hour_short_witness :
    find_cheapest_hour [((0 : ℤ), (5 : ℚ))] = none :=
  find_cheapest_hour_short [((0 : ℤ), (5 : ℚ))] (by decide)

/-- C1: for a filtered series of length ≥ 4, `find_cheapest_hour` returns
the window of 4 consecutive elements starting at some offset `i`
(with `i + 4 ≤ length`, i.e. `i` ranges over `0 .. length-4`), paired
with that window's arithmetic mean, and that mean is ≤ the mean of every
length-4 contiguous window of the series. -/
theorem find_cheapest_hour_min (prices : List Point) (h : 4 ≤ prices.length) :
    ∃ i, i + 4 ≤ prices.length ∧
      find_cheapest_hour prices =
        some (windowAt prices i, windowAvg (windowAt prices i)) ∧
      (windowAt prices i).length = 4 ∧
      ∀ j, j + 4 ≤ prices.length →
        windowAvg (windowAt prices i) ≤ windowAvg (windowAt prices j) := by
  have hn : 0 < prices.length - 4 + 1 := Nat.succ_pos _
  obtain ⟨i, hi, hfold, hmin, _⟩ := foldl_bestStep_spec prices (prices.length - 4 + 1) hn
  refine ⟨i, by omega, ?_, ?_, ?_⟩
  · rw [find_cheapest_hour, if_neg (by simp [QUARTERS_PER_HOUR]; omega)]
    exact hfold
  · simp only [windowAt, QUARTERS_PER_HOUR, List.length_take, List.length_drop]
    omega
  · intro j hj
    exact hmin j (by omega)

/-- Witness for C1 at the concrete series of Scenario A
`[(00:00, 5), (00:15, 3), (00:30, 4), (00:45, 2)]`. -/
theorem find_cheapest_hour_min_witness :
    ∃ i, i + 4 ≤ ([((0 : ℤ), (5 : ℚ)), (15, 3), (30, 4), (45, 2)] : List Point).length ∧
      find_cheapest_hour [((0 : ℤ), (5 : ℚ)), (15, 3), (30, 4), (45, 2)] =
        some (windowAt [((0 : ℤ), (5 : ℚ)), (15, 3), (30, 4), (45, 2)] i,
          windowAvg (windowAt [((0 : ℤ), (5 : ℚ)), (15, 3), (30, 4), (45, 2)] i)) ∧
      (windowAt [((0 : ℤ), (5 : ℚ)), (15, 3), (30, 4), (45, 2)] i).length = 4 ∧
      ∀ j, j + 4 ≤ ([((0 : ℤ), (5 : ℚ)), (15, 3), (30, 4), (45, 2)] : List Point).length →
        windowAvg (windowAt [((0 : ℤ), (5 : ℚ)), (15, 3), (30, 4), (45, 2)] i) ≤
          windowAvg (windowAt [((0 : ℤ), (5 : ℚ)), (15, 3), (30, 4), (45, 2)] j) :=
  find_cheapest_hour_min [((0 : ℤ), (5 : ℚ)), (15, 3), (30, 4), (45, 2)] (by decide)

/-- C3: the returned window is the first-encountered minimum: every
window starting strictly earlier has a strictly larger average, so among
tied minimum windows the earliest-starting one is returned. -/
theorem find_cheapest_hour_tiebreak (prices : List Point) (h : 4 ≤ prices.length) :
    ∃ i, i + 4 ≤ prices.length ∧
      find_cheapest_hour prices =
        some (windowAt prices i, windowAvg (windowAt prices i)) ∧
      ∀ j, j < i →
        windowAvg (windowAt prices i) < windowAvg (windowAt prices j) := by
  have hn : 0 < prices.length - 4 + 1 := Nat.succ_pos _
  obtain ⟨i, hi, hfold, _, hfirst⟩ := foldl_bestStep_spec prices (prices.length - 4 + 1) hn
  refine ⟨i, by omega, ?_, hfirst⟩
  rw [find_cheapest_hour, if_neg (by simp [QUARTERS_PER_HOUR]; omega)]
  exact hfold

/-- Witness for C3 at a series with two tied minimum windows
(all five prices equal, so windows at offsets 0 and 1 tie). -/
theorem find_cheapest_hour_tiebreak_witness :
    ∃ i, i + 4 ≤ ([((0 : ℤ), (2 : ℚ)), (15, 2), (30, 2), (45, 2), (60, 2)] : List Point).length ∧
      find_cheapest_hour [((0 : ℤ), (2 : ℚ)), (15, 2), (30, 2), (45, 2), (60, 2)] =
        some (windowAt [((0 : ℤ), (2 : ℚ)), (15, 2), (30, 2), (45, 2), (60, 2)] i,
          windowAvg (windowAt [((0 : ℤ), (2 : ℚ)), (15, 2), (30, 2), (45, 2), (60, 2)] i)) ∧
      ∀ j, j < i →
        windowAvg (windowAt [((0 : ℤ), (2 : ℚ)), (15, 2), (30, 2), (45, 2), (60, 2)] i) <
          windowAvg (windowAt [((0 : ℤ), (2 : ℚ)), (15, 2), (30, 2), (45, 2), (60, 2)] j) :=
  find_cheapest_hour_tiebreak [((0 : ℤ), (2 : ℚ)), (15, 2), (30, 2), (45, 2), (60, 2)] (by decide)

/-- C4: the cheapest-quarters selection has length `min 3 (input length)`
(hence ≤ 3 and ≤ the input length), is sorted ascending by price, and
every element of it occurs in the input series. -/
theorem top3_spec (l : List Point) :
    (top3 l).length = min 3 l.length ∧
    List.Sorted (fun a b : Point => a.2 ≤ b.2) (top3 l) ∧
    ∀ p ∈ top3 l, p ∈ l := by
  refine ⟨?_, ?_, ?_⟩
  · rw [top3, List.length_take, sorted_prices,
      (List.perm_insertionSort _ l).length_eq]
  · rw [top3, sorted_prices]
    exact List.Pairwise.sublist (List.take_sublist 3 _) (List.sorted_insertionSort _ l)
  · intro p hp
    rw [top3, sorted_prices] at hp
    exact (List.mem_insertionSort _).mp (List.mem_of_mem_take hp)

/-- C5: stability of the cheapest-quarters selection.  For every price
value `k`, the entries of the top-3 output with price `k` are an initial
segment of the input's price-`k` entries in input order: equal-priced
entries keep their original relative order, and in particular of two
entries with the same minimal price the earlier-listed one comes first
in the output. -/
theorem top3_stable (l : List Point) (k : ℚ) :
    ∃ rest, (top3 l).filter (fun p => decide (p.2 = k)) ++ rest =
      l.filter (fun p => decide (p.2 = k)) := by
  refine ⟨((sorted_prices l).drop 3).filter (fun p => decide (p.2 = k)), ?_⟩
  rw [top3, ← List.filter_append, List.take_append_drop]
  exact filter_sorted_prices_key k l

/-- C6: `filter_prices` keeps a record iff its local calendar date is the
target date and its local hour lies in `[sh, eh)` — and the kept records
come out in their input order: the loop output is exactly `List.filter`
of the keep-condition over the input. -/
theorem filter_prices_keeps_iff (toLocal : ℤ → LocalDT) (today : ℤ) (sh eh : ℕ)
    (l : List Point) :
    filter_prices toLocal today sh eh l = l.filter (keepPoint toLocal today sh eh) :=
  filter_prices_eq_filter toLocal today sh eh l

/-- C7: filtering an already-filtered series again, with the same target
date and hour-band bounds, returns it unchanged. -/
theorem filter_prices_idem (toLocal : ℤ → LocalDT) (today : ℤ) (sh eh : ℕ)
    (l : List Point) :
    filter_prices toLocal today sh eh (filter_prices toLocal today sh eh l) =
      filter_prices toLocal today sh eh l := by
  rw [filter_prices_eq_filter, filter_prices_eq_filter,
    List.filter_filter]
  simp

/-- C8: when the normalizer yields zero filtered points, `main` bypasses
the report formatter and hands exactly the fixed message
"No electricity price data found for today." to the delivery channel,
then returns; no report is built from the analysis. -/
theorem emptyFiltered_fixed_message (resolve : String → Option (ℤ → LocalDT))
    (tzName : String) (toLocal : ℤ → LocalDT) (sh eh : ℕ) (now : ℤ)
    (prices : List Point)
    (hres : resolve tzName = some toLocal)
    (hemp : filter_prices toLocal ((toLocal now).date) sh eh prices = []) :
    mainRun resolve tzName sh eh now (.ok prices) =
      ⟨["No electricity price data found for today."], 0⟩ := by
  simp [mainRun, hres, hemp]

/-- Witness for C8: an empty provider response. -/
theorem emptyFiltered_fixed_message_witness :
    mainRun (fun _ => some utcLocal) "Europe/Helsinki" 7 21 0 (.ok []) =
      ⟨["No electricity price data found for today."], 0⟩ :=
  emptyFiltered_fixed_message (fun _ => some utcLocal) "Europe/Helsinki" utcLocal 7 21 0 []
    rfl rfl

/-- C9 fails on the code: with an unrecognized timezone name and
otherwise valid configuration, startup validation passes (it never
inspects the timezone string), and the run ends with exit status 0
after attempting an error notification — not a nonzero exit with no
delivery attempt. -/
theorem badTimezone_counterexample :
    validateStartup (some "token") (some "chat") 7 21 = none ∧
    (mainRun (fun _ => none) "Not/AZone" 7 21 0 (.ok [])).exitCode = 0 ∧
    (mainRun (fun _ => none) "Not/AZone" 7 21 0 (.ok [])).sends ≠ [] := by
  refine ⟨rfl, rfl, ?_⟩
  simp [mainRun]

/-- C9 amended: an unrecognized timezone name is not caught at startup;
`pytz.timezone` first runs inside `main`'s `try` block, so the error is
caught by the generic handler, exactly one error notification is
attempted, and the process exits with status 0. -/
theorem badTimezone_runtime (resolve : String → Option (ℤ → LocalDT))
    (tzName : String) (sh eh : ℕ) (now : ℤ) (fetch : Except String (List Point))
    (h : resolve tzName = none) :
    mainRun resolve tzName sh eh now fetch =
      ⟨["Error running bot: UnknownTimeZoneError"], 0⟩ := by
  simp [mainRun, h]

/-- Witness for the amended C9. -/
theorem badTimezone_runtime_witness :
    mainRun (fun _ => none) "Mars/Olympus" 7 21 0 (.ok []) =
      ⟨["Error running bot: UnknownTimeZoneError"], 0⟩ :=
  badTimezone_runtime (fun _ => none) "Mars/Olympus" 7 21 0 (.ok []) rfl

/-- Series with a missing quarter: points at minutes 0, 15, 30 and 60;
the 45-minute quarter is absent, so two list-consecutive points are
30 wall-clock minutes apart. -/
def gapSeries : List Point := [(0, 1), (15, 1), (30, 1), (60, 1)]

/-- C10: `find_cheapest_hour` windows by list position only and never
inspects timestamps: on `gapSeries` the returned "cheapest 1-hour block"
is the whole series, and the range reported for it by
`format_cheapest_hour` (first point's start to last point's start plus
15 minutes) runs from minute 0 to minute 75 — strictly more than 60
minutes of wall-clock time. -/
theorem gap_block_spans_more_than_hour :
    find_cheapest_hour gapSeries = some (gapSeries, 1) ∧
    blockRange gapSeries = some (0, 75) ∧
    (75 : ℤ) - 0 > 60 := by
  refine ⟨?_, rfl, by decide⟩
  show (List.range 1).foldl (bestStep gapSeries) none = some (gapSeries, 1)
  rw [show List.range 1 = [0] from rfl, List.foldl_cons, List.foldl_nil]
  show some (windowAt gapSeries 0, windowAvg (windowAt gapSeries 0)) = some (gapSeries, 1)
  rw [show windowAt gapSeries 0 = gapSeries from rfl]
  norm_num [windowAvg, gapSeries, QUARTERS_PER_HOUR]

end PriceBot
